import Mathlib

/-!
Shallow embedding of the hydroctrl sensing/actuation core (ph.py, pump.py),
with theorems checking the natural-language specification against the code.
Python floats are modelled as exact rationals; Python exceptions as `Except`.
-/

/-- Error kinds raised by the pH code: each constructor corresponds to one
`raise` site in ph.py, plus Python's built-in ZeroDivisionError. -/
inductive PHError
  | temperatureOutOfRange
  | calibrationArity
  | slopeOutOfRange
  | offsetOutOfRange
  | zeroDivision
  deriving DecidableEq, Repr

namespace PHTheory

/-- `gas_const` from PHTheory.ideal_slope. -/
def gas_const : ℚ := 8.3144

/-- `faraday_const` from PHTheory.ideal_slope. -/
def faraday_const : ℚ := 96485

/-- `abs_zero_temp` from PHTheory.ideal_slope. -/
def abs_zero_temp : ℚ := -273.15

/-- `ln_10` from PHTheory.ideal_slope. -/
def ln_10 : ℚ := 2.3026

/-- The value returned by PHTheory.ideal_slope when the temperature check passes. -/
def ideal_slope_val (temp : ℚ) : ℚ :=
  gas_const * (temp - abs_zero_temp) * ln_10 / faraday_const

/-- PHTheory.ideal_slope: raises when `temp < 0 or temp > 100`, otherwise
returns `gas_const * (temp - abs_zero_temp) * ln_10 / faraday_const`. -/
def ideal_slope (temp : ℚ) : Except PHError ℚ :=
  if temp < 0 ∨ temp > 100 then .error .temperatureOutOfRange
  else .ok (ideal_slope_val temp)

/-- PHTheory.compute_slope: `(v1 - v2) / (ph2 - ph1) / ideal_slope(temp)`.
Python evaluates the left division first, so `ph2 == ph1` raises
ZeroDivisionError before the temperature check in ideal_slope runs. -/
def compute_slope (temp ph1 v1 ph2 v2 : ℚ) : Except PHError ℚ :=
  if ph2 - ph1 = 0 then .error .zeroDivision
  else do
    let s ← ideal_slope temp
    if s = 0 then .error .zeroDivision
    else .ok ((v1 - v2) / (ph2 - ph1) / s)

/-- PHTheory.compute_offset: `v + slope * ideal_slope(temp) * (ph - 7)`. -/
def compute_offset (temp slope ph v : ℚ) : Except PHError ℚ := do
  let s ← ideal_slope temp
  .ok (v + slope * s * (ph - 7))

/-- PHTheory.compute_ph: `7 + (offset - v) / (slope * ideal_slope(temp))`;
a zero divisor would raise ZeroDivisionError in Python. -/
def compute_ph (temp offset slope v : ℚ) : Except PHError ℚ := do
  let s ← ideal_slope temp
  if slope * s = 0 then .error .zeroDivision
  else .ok (7 + (offset - v) / (slope * s))

end PHTheory

/-- A calibration point from settings: a pH value and the electrode voltage. -/
structure CalPoint where
  ph : ℚ
  voltage : ℚ
  deriving DecidableEq, Repr

/-- The state a successfully constructed PHCalibration exposes. -/
structure PHCalibration where
  slope : ℚ
  offset : ℚ
  deriving DecidableEq, Repr

namespace PHCalibration

/-- `max_slope_drift` class attribute of PHCalibration. -/
def max_slope_drift : ℚ := 0.2

/-- `max_v_ph7_drift` class attribute of PHCalibration. -/
def max_v_ph7_drift : ℚ := 30e-3

/-- PHCalibration.__init__, with the settings (calibration points, reference
temperature, ADC zero-offset voltage `PH_ADC_V_OFFSET`) passed explicitly.
Checks arity, computes slope and offset, then validates both drifts. -/
def init (points : List CalPoint) (temp adc_v_off : ℚ) :
    Except PHError PHCalibration :=
  match points with
  | [point1, point2] => do
    let slope ← PHTheory.compute_slope temp
      point1.ph point1.voltage point2.ph point2.voltage
    let offset ← PHTheory.compute_offset temp slope point1.ph point1.voltage
    if |slope - 1| > max_slope_drift then .error .slopeOutOfRange
    else
      let v_ph7 := offset - adc_v_off
      if |v_ph7| > max_v_ph7_drift then .error .offsetOutOfRange
      else .ok ⟨slope, offset⟩
  | _ => .error .calibrationArity

/-- PHCalibration.compute_ph (method): delegates to PHTheory.compute_ph with
the stored offset and slope. -/
def compute_ph (c : PHCalibration) (temp v : ℚ) : Except PHError ℚ :=
  PHTheory.compute_ph temp c.offset c.slope v

end PHCalibration

/-- The slope PHCalibration.__init__ computes when no exception occurs:
`(v1 - v2) / (ph2 - ph1) / ideal_slope(temp)` on the two points. -/
def slope_value (p1 p2 : CalPoint) (temp : ℚ) : ℚ :=
  (p1.voltage - p2.voltage) / (p2.ph - p1.ph) / PHTheory.ideal_slope_val temp

/-- The offset PHCalibration.__init__ computes when no exception occurs:
`v1 + slope * ideal_slope(temp) * (ph1 - 7)` on the first point. -/
def offset_value (p1 p2 : CalPoint) (temp : ℚ) : ℚ :=
  p1.voltage + slope_value p1 p2 temp * PHTheory.ideal_slope_val temp * (p1.ph - 7)

namespace ADCInterface

/-- `adc_bits` class attribute of ADCInterface. -/
def adc_bits : ℕ := 12

/-- `filter_samples` class attribute of ADCInterface. -/
def filter_samples : ℕ := 256

/-- ADCInterface.value_to_voltage: `value * PH_ADC_V_REF / (1 << adc_bits)`,
with the reference voltage passed explicitly. -/
def value_to_voltage (v_ref value : ℚ) : ℚ :=
  value * v_ref / (2 ^ adc_bits)

/-- ADCInterface._get_value: composes the two bytes returned by
`read_i2c_block_data(..., 2)` as `(reading[0] << 8) + reading[1]`.
The bus is modelled by the pair of bytes it returned. -/
def _get_value (b0 b1 : ℕ) : ℕ := b0 * 2 ^ 8 + b1

/-- ADCInterface._get_values: `filter_samples` sequential raw reads, in
order; the bus primitive is modelled as a function from the read index to
the pair of bytes the bus returns for that read. -/
def _get_values (bus : ℕ → ℕ × ℕ) : List ℕ :=
  (List.range filter_samples).map (fun n => _get_value (bus n).1 (bus n).2)

/-- `statistics.mean` of a list of values, exact. -/
def list_mean (xs : List ℚ) : ℚ := xs.sum / xs.length

/-- Population variance, the square of `statistics.pstdev`. -/
def list_pvariance (xs : List ℚ) : ℚ :=
  ((xs.map (fun x => (x - list_mean xs) ^ 2)).sum) / xs.length

/-- `statistics.pstdev`: population standard deviation (a real square root,
hence noncomputable in the exact model). -/
noncomputable def list_pstdev (xs : List ℚ) : ℝ :=
  Real.sqrt ((list_pvariance xs : ℚ) : ℝ)

/-- Result record of ADCInterface.get_voltage_with_stat. -/
structure StatData where
  value : ℚ
  value_dev : ℝ
  voltage : ℚ
  voltage_dev : ℝ

/-- ADCInterface.get_value_with_stat composed with get_voltage_with_stat:
mean and pstdev of one batch and both converted through value_to_voltage. -/
noncomputable def get_voltage_with_stat (v_ref : ℚ) (bus : ℕ → ℕ × ℕ) :
    StatData :=
  let values : List ℚ := (_get_values bus).map (fun v : ℕ => (v : ℚ))
  { value := list_mean values
    value_dev := list_pstdev values
    voltage := value_to_voltage v_ref (list_mean values)
    voltage_dev := list_pstdev values * (v_ref : ℝ) / ((2 : ℝ) ^ adc_bits) }

end ADCInterface

/-- One observable action of PumpInterface.step on its collaborators: a GPIO
output write on the sleep or step line, or a time.sleep of a duration. -/
inductive PumpEvent
  | setSleep (b : Bool)
  | setStep (b : Bool)
  | delay (d : ℚ)
  deriving DecidableEq, Repr

namespace PumpInterface

/-- `max_rpm` class attribute of PumpInterface. -/
def max_rpm : ℚ := 30

/-- `step_angle` class attribute of PumpInterface. -/
def step_angle : ℚ := 1.8

/-- `wake_up_time` class attribute of PumpInterface. -/
def wake_up_time : ℚ := 1e-3

/-- `microsteps` class attribute of PumpInterface. -/
def microsteps : ℚ := 8

/-- PumpInterface.max_step_frequency:
`(max_rpm / 60) * (360 / step_angle * microsteps)`. -/
def max_step_frequency : ℚ :=
  (max_rpm / 60) * (360 / step_angle * microsteps)

/-- Python `int(...)` on a rational: truncation toward zero. -/
def py_int (q : ℚ) : ℤ := if 0 ≤ q then ⌊q⌋ else ⌈q⌉

/-- The event block of one iteration of the loop in PumpInterface.step. -/
def pulse_block : List PumpEvent :=
  [.setStep true, .delay (0.5 / max_step_frequency),
   .setStep false, .delay (0.5 / max_step_frequency)]

/-- PumpInterface.step, as the trace of GPIO/time actions it performs:
sleep line high, wake-up delay, `int(count)` pulse blocks, sleep line low.
`range(0, int(count))` is empty when `int(count) ≤ 0`. -/
def step (count : ℚ) : List PumpEvent :=
  [.setSleep true, .delay wake_up_time] ++
  (List.replicate (py_int count).toNat pulse_block).flatten ++
  [.setSleep false]

/-- PumpInterface.pump: `step(volume * steps_per_litre)`, with the
calibration constant passed explicitly. -/
def pump (steps_per_litre volume : ℚ) : List PumpEvent :=
  step (volume * steps_per_litre)

/-- Number of step pulses in a trace: rising edges of the step line. -/
def num_pulses (es : List PumpEvent) : ℕ :=
  (es.filter (fun e => e = .setStep true)).length

end PumpInterface

/-! ### Helper lemmas -/

lemma ideal_slope_val_linear (t : ℚ) :
    PHTheory.ideal_slope_val t = 8.3144 * 2.3026 / 96485 * (t + 273.15) := by
  simp only [PHTheory.ideal_slope_val, PHTheory.gas_const, PHTheory.abs_zero_temp,
    PHTheory.ln_10, PHTheory.faraday_const]
  ring

lemma ideal_slope_val_pos {t : ℚ} (h : 0 ≤ t) : 0 < PHTheory.ideal_slope_val t := by
  rw [ideal_slope_val_linear]
  have h1 : (0:ℚ) < 8.3144 * 2.3026 / 96485 := by norm_num
  have h2 : (0:ℚ) < t + 273.15 := by linarith
  exact mul_pos h1 h2

lemma ideal_slope_ok {t : ℚ} (h0 : 0 ≤ t) (h1 : t ≤ 100) :
    PHTheory.ideal_slope t = .ok (PHTheory.ideal_slope_val t) := by
  rw [PHTheory.ideal_slope, if_neg]
  push_neg
  exact ⟨h0, h1⟩

/-! ### Theorems for the claims -/

/-- C4: PHTheory.ideal_slope fails with TemperatureOutOfRange exactly when
temp < 0 or temp > 100; temp = 0 and temp = 100 succeed while -0.001 and
100.001 fail; in range it returns
`gas_const * (temp - abs_zero_temp) * ln_10 / faraday_const` with the
source constants R = 8.3144, F = 96485, absolute zero = -273.15,
ln10 = 2.3026; and the returned value is strictly increasing in temp. -/
theorem ideal_slope_range_boundaries_mono :
    (∀ temp : ℚ, PHTheory.ideal_slope temp = .error .temperatureOutOfRange ↔
      (temp < 0 ∨ temp > 100)) ∧
    (∀ temp : ℚ, 0 ≤ temp → temp ≤ 100 →
      PHTheory.ideal_slope temp =
        .ok (8.3144 * (temp - -273.15) * 2.3026 / 96485)) ∧
    (∃ v, PHTheory.ideal_slope 0 = .ok v) ∧
    (∃ v, PHTheory.ideal_slope 100 = .ok v) ∧
    PHTheory.ideal_slope (-(1/1000)) = .error .temperatureOutOfRange ∧
    PHTheory.ideal_slope (100 + 1/1000) = .error .temperatureOutOfRange ∧
    (∀ t1 t2 : ℚ, 0 ≤ t1 → t1 ≤ 100 → 0 ≤ t2 → t2 ≤ 100 → t1 < t2 →
      PHTheory.ideal_slope_val t1 < PHTheory.ideal_slope_val t2) := by
  refine ⟨?_, ?_, ?_, ?_, ?_, ?_, ?_⟩
  · intro temp
    simp only [PHTheory.ideal_slope]
    split_ifs with h <;> simp [h]
  · intro temp h0 h1
    rw [ideal_slope_ok h0 h1]
    norm_num [PHTheory.ideal_slope_val, PHTheory.gas_const, PHTheory.abs_zero_temp,
      PHTheory.ln_10, PHTheory.faraday_const]
  · exact ⟨_, ideal_slope_ok le_rfl (by norm_num)⟩
  · exact ⟨_, ideal_slope_ok (by norm_num) le_rfl⟩
  · rw [PHTheory.ideal_slope, if_pos]
    norm_num
  · rw [PHTheory.ideal_slope, if_pos]
    norm_num
  · intro t1 t2 _ _ _ _ hlt
    rw [ideal_slope_val_linear, ideal_slope_val_linear]
    have h1 : (0:ℚ) < 8.3144 * 2.3026 / 96485 := by norm_num
    exact mul_lt_mul_of_pos_left (by linarith) h1

/-- Witness for C4: the theorem applied at temp = 20 and at the pair
(20, 30) for strict monotonicity. -/
theorem ideal_slope_range_boundaries_mono_witness :
    ((0:ℚ) ≤ 20 ∧ (20:ℚ) ≤ 100 ∧ (0:ℚ) ≤ 30 ∧ (30:ℚ) ≤ 100 ∧ (20:ℚ) < 30) ∧
    PHTheory.ideal_slope 20 = .ok (8.3144 * (20 - -273.15) * 2.3026 / 96485) ∧
    PHTheory.ideal_slope_val 20 < PHTheory.ideal_slope_val 30 :=
  ⟨by norm_num,
   ideal_slope_range_boundaries_mono.2.1 20 (by norm_num) (by norm_num),
   ideal_slope_range_boundaries_mono.2.2.2.2.2.2 20 30 (by norm_num) (by norm_num)
     (by norm_num) (by norm_num) (by norm_num)⟩

/-- C3: for every temperature in [0, 100], nonzero slope, voltage and
measurement m, composing compute_offset with compute_ph returns m exactly
(exact rational arithmetic). -/
theorem compute_offset_compute_ph_roundtrip :
    ∀ temp slope m v : ℚ, 0 ≤ temp → temp ≤ 100 → slope ≠ 0 →
      (PHTheory.compute_offset temp slope m v).bind
        (fun offs => PHTheory.compute_ph temp offs slope v) = .ok m := by
  intro temp slope m v h0 h1 hs
  have hok := ideal_slope_ok h0 h1
  have hpos := ideal_slope_val_pos h0
  have hne : slope * PHTheory.ideal_slope_val temp ≠ 0 :=
    mul_ne_zero hs (ne_of_gt hpos)
  simp only [PHTheory.compute_offset, PHTheory.compute_ph, hok, bind, Except.bind,
    if_neg hne]
  congr 1
  field_simp

/-- Witness for C3: round trip at temp = 25, slope = 1, m = 4, v = 3/2. -/
theorem compute_offset_compute_ph_roundtrip_witness :
    ((0:ℚ) ≤ 25 ∧ (25:ℚ) ≤ 100 ∧ (1:ℚ) ≠ 0) ∧
    (PHTheory.compute_offset 25 1 4 (3/2)).bind
      (fun offs => PHTheory.compute_ph 25 offs 1 (3/2)) = .ok 4 :=
  ⟨by norm_num,
   compute_offset_compute_ph_roundtrip 25 1 4 (3/2) (by norm_num) (by norm_num)
     (by norm_num)⟩

/-- C9: with two calibration points of equal pH and an in-range reference
temperature, PHCalibration construction hits the unguarded division by
`ph2 - ph1` and fails with ZeroDivisionError, not one of the enumerated
error kinds. -/
theorem init_equal_ph_zero_division :
    ∀ p1 p2 : CalPoint, ∀ temp v_off : ℚ, p1.ph = p2.ph →
      0 ≤ temp → temp ≤ 100 →
      PHCalibration.init [p1, p2] temp v_off = .error .zeroDivision := by
  intro p1 p2 temp v_off heq h0 h1
  simp only [PHCalibration.init, PHTheory.compute_slope]
  rw [if_pos (by rw [heq]; ring)]
  rfl

/-- Witness for C9: two points at pH 7 with different voltages, temp 25. -/
theorem init_equal_ph_zero_division_witness :
    ((CalPoint.mk 7 1).ph = (CalPoint.mk 7 2).ph ∧ (0:ℚ) ≤ 25 ∧ (25:ℚ) ≤ 100) ∧
    PHCalibration.init [⟨7, 1⟩, ⟨7, 2⟩] 25 0 = .error .zeroDivision :=
  ⟨⟨rfl, by norm_num, by norm_num⟩,
   init_equal_ph_zero_division ⟨7, 1⟩ ⟨7, 2⟩ 25 0 rfl (by norm_num) (by norm_num)⟩

lemma num_pulses_append (a b : List PumpEvent) :
    PumpInterface.num_pulses (a ++ b) =
      PumpInterface.num_pulses a + PumpInterface.num_pulses b := by
  simp [PumpInterface.num_pulses, List.filter_append]

lemma num_pulses_replicate_flatten (n : ℕ) :
    PumpInterface.num_pulses
      (List.replicate n PumpInterface.pulse_block).flatten = n := by
  induction n with
  | zero => rfl
  | succ k ih =>
    rw [List.replicate_succ, List.flatten_cons, num_pulses_append, ih]
    simp only [PumpInterface.num_pulses, PumpInterface.pulse_block]
    simp
    omega

lemma num_pulses_step (count : ℚ) :
    PumpInterface.num_pulses (PumpInterface.step count) =
      (PumpInterface.py_int count).toNat := by
  rw [PumpInterface.step, num_pulses_append, num_pulses_append,
    num_pulses_replicate_flatten]
  simp [PumpInterface.num_pulses]

/-- C6 (confirmed): pump(0) performs the full wake/sleep cycle and nothing
else: sleep line asserted, a wake_up_time delay, sleep line deasserted; no
step pulse is emitted and the step line is never written. -/
theorem pump_zero_idle_cycle :
    ∀ spl : ℚ,
      PumpInterface.pump spl 0 =
        [.setSleep true, .delay PumpInterface.wake_up_time, .setSleep false] ∧
      PumpInterface.num_pulses (PumpInterface.pump spl 0) = 0 := by
  intro spl
  have h0 : PumpInterface.pump spl 0 = PumpInterface.step 0 := by
    rw [PumpInterface.pump, zero_mul]
  have h1 : PumpInterface.step 0 =
      [.setSleep true, .delay PumpInterface.wake_up_time, .setSleep false] := by
    rw [PumpInterface.step]
    norm_num [PumpInterface.py_int]
  rw [h0, h1]
  exact ⟨rfl, rfl⟩

/-- C1 counterexample: the code truncates the step count instead of
rounding it: pumping volume 19/10 with steps_per_litre 1 emits 1 pulse,
while round(19/10 · 1) = 2. -/
theorem pump_round_cex :
    PumpInterface.num_pulses (PumpInterface.pump 1 (19/10)) = 1 ∧
    round ((19:ℚ)/10 * 1) = 2 := by
  constructor
  · rw [PumpInterface.pump, num_pulses_step]
    norm_num [PumpInterface.py_int]
  · norm_num [round_eq]

/-- C1 amended (corrected): the step count is int(volume · steps_per_litre),
Python truncation toward zero, not round-to-nearest; at steps_per_litre =
1050 and volume = 1e-3 the trace contains exactly int(1.05) = 1 pulse. -/
theorem pump_step_count_truncation :
    (∀ spl volume : ℚ,
      PumpInterface.num_pulses (PumpInterface.pump spl volume) =
        (PumpInterface.py_int (volume * spl)).toNat) ∧
    PumpInterface.num_pulses (PumpInterface.pump 1050 (1/1000)) = 1 := by
  constructor
  · intro spl volume
    rw [PumpInterface.pump, num_pulses_step]
  · rw [PumpInterface.pump, num_pulses_step]
    norm_num [PumpInterface.py_int]

/-- C5 (confirmed): the trace of step(count) is the wake-up prologue, then
int(count) pulse blocks each holding the step line high for
0.5/max_step_frequency and low for the same duration, then the sleep
epilogue; max_step_frequency is (max_rpm/60)·(360/step_angle)·microsteps;
and no delay in the whole trace is shorter than 0.5/max_step_frequency. -/
theorem step_pulse_timing :
    ∀ count : ℚ,
      PumpInterface.step count =
        [.setSleep true, .delay PumpInterface.wake_up_time] ++
        (List.replicate (PumpInterface.py_int count).toNat
          [.setStep true, .delay (0.5 / PumpInterface.max_step_frequency),
           .setStep false, .delay (0.5 / PumpInterface.max_step_frequency)]).flatten ++
        [.setSleep false] ∧
      PumpInterface.max_step_frequency =
        PumpInterface.max_rpm / 60 * (360 / PumpInterface.step_angle) *
          PumpInterface.microsteps ∧
      (∀ d : ℚ, PumpEvent.delay d ∈ PumpInterface.step count →
        0.5 / PumpInterface.max_step_frequency ≤ d) := by
  intro count
  refine ⟨rfl, by rw [PumpInterface.max_step_frequency]; ring, ?_⟩
  intro d hd
  rw [PumpInterface.step] at hd
  rcases List.mem_append.1 hd with h1 | h1
  · rcases List.mem_append.1 h1 with h2 | h2
    · rcases List.mem_cons.1 h2 with h3 | h3
      · cases h3
      · rcases List.mem_cons.1 h3 with h4 | h4
        · cases h4
          norm_num [PumpInterface.wake_up_time, PumpInterface.max_step_frequency,
            PumpInterface.max_rpm, PumpInterface.step_angle, PumpInterface.microsteps]
        · simp at h4
    · rcases List.mem_flatten.1 h2 with ⟨l, hl, hm⟩
      have hlb := List.eq_of_mem_replicate hl
      subst hlb
      rw [PumpInterface.pulse_block] at hm
      rcases List.mem_cons.1 hm with h3 | h3
      · cases h3
      · rcases List.mem_cons.1 h3 with h4 | h4
        · cases h4
          exact le_rfl
        · rcases List.mem_cons.1 h4 with h5 | h5
          · cases h5
          · rcases List.mem_cons.1 h5 with h6 | h6
            · cases h6
              exact le_rfl
            · simp at h6
  · rcases List.mem_cons.1 h1 with h3 | h3
    · cases h3
    · simp at h3

/-- Witness for C5: the theorem applied at count = 1 and the wake-up delay,
which is a member of the trace and at least the half-period hold. -/
theorem step_pulse_timing_witness :
    PumpEvent.delay PumpInterface.wake_up_time ∈ PumpInterface.step 1 ∧
    0.5 / PumpInterface.max_step_frequency ≤ PumpInterface.wake_up_time := by
  have hmem : PumpEvent.delay PumpInterface.wake_up_time ∈ PumpInterface.step 1 := by
    simp [PumpInterface.step]
  exact ⟨hmem, (step_pulse_timing 1).2.2 _ hmem⟩

/-- C7 counterexample: the byte pair (16, 0) is a legal pair of bus bytes,
yet _get_value composes it to 4096, which is not a 12-bit value: the code
applies no mask to the upper 4 bits of the first byte. -/
theorem get_value_no_mask_cex :
    ((16:ℕ) < 256 ∧ (0:ℕ) < 256) ∧
    ADCInterface._get_value 16 0 = 4096 ∧
    ¬ ADCInterface._get_value 16 0 < 4096 := by
  refine ⟨by norm_num, by decide, by decide⟩

/-- C7 amended (corrected): _get_value composes the two bytes big-endian as
(byte0 << 8) + byte1; the result is below 4096 exactly when the upper 4
bits of the first byte are zero (byte0 < 16), which the 12-bit converter
guarantees but the code does not enforce. -/
theorem get_value_big_endian_range :
    ∀ b0 b1 : ℕ, b1 < 256 →
      ADCInterface._get_value b0 b1 = b0 * 2 ^ 8 + b1 ∧
      (ADCInterface._get_value b0 b1 < 4096 ↔ b0 < 16) := by
  intro b0 b1 hb1
  refine ⟨rfl, ?_⟩
  simp only [ADCInterface._get_value, show (2:ℕ) ^ 8 = 256 from by norm_num]
  omega

/-- Witness for C7 amended: the theorem applied at bytes (5, 10). -/
theorem get_value_big_endian_range_witness :
    (10:ℕ) < 256 ∧
    (ADCInterface._get_value 5 10 = 5 * 2 ^ 8 + 10 ∧
      (ADCInterface._get_value 5 10 < 4096 ↔ (5:ℕ) < 16)) :=
  ⟨by norm_num, get_value_big_endian_range 5 10 (by norm_num)⟩

lemma init_pair_eval (p1 p2 : CalPoint) (temp v_off : ℚ)
    (h0 : 0 ≤ temp) (h1 : temp ≤ 100) (hne : p1.ph ≠ p2.ph) :
    PHCalibration.init [p1, p2] temp v_off =
      if |slope_value p1 p2 temp - 1| > PHCalibration.max_slope_drift
        then .error .slopeOutOfRange
      else if |offset_value p1 p2 temp - v_off| > PHCalibration.max_v_ph7_drift
        then .error .offsetOutOfRange
      else .ok ⟨slope_value p1 p2 temp, offset_value p1 p2 temp⟩ := by
  have hok := ideal_slope_ok h0 h1
  have hpos := ideal_slope_val_pos h0
  have hsub : ¬(p2.ph - p1.ph = 0) := sub_ne_zero.2 (Ne.symm hne)
  simp only [PHCalibration.init, PHTheory.compute_slope, PHTheory.compute_offset,
    hok, if_neg hsub, if_neg hpos.ne', bind, Except.bind, slope_value, offset_value]

lemma slope_value_example :
    slope_value ⟨7, 0⟩ ⟨4, 3 * PHTheory.ideal_slope_val 25⟩ 25 = 1 := by
  have hs : PHTheory.ideal_slope_val 25 ≠ 0 :=
    (ideal_slope_val_pos (by norm_num)).ne'
  rw [slope_value]
  show (0 - 3 * PHTheory.ideal_slope_val 25) / (4 - 7) /
    PHTheory.ideal_slope_val 25 = 1
  field_simp
  ring

lemma offset_value_example :
    offset_value ⟨7, 0⟩ ⟨4, 3 * PHTheory.ideal_slope_val 25⟩ 25 = 0 := by
  rw [offset_value, slope_value_example]
  norm_num

lemma init_ideal_example :
    PHCalibration.init [⟨7, 0⟩, ⟨4, 3 * PHTheory.ideal_slope_val 25⟩] 25 0 =
      .ok ⟨1, 0⟩ := by
  rw [init_pair_eval _ _ _ _ (by norm_num) (by norm_num) (by norm_num),
    slope_value_example, offset_value_example]
  norm_num [PHCalibration.max_slope_drift, PHCalibration.max_v_ph7_drift]

/-- C2 (confirmed): for two calibration points of distinct pH and an
in-range reference temperature, construction succeeds exactly when the
slope drift is at most 0.2 and the offset drift at most 0.030 V
(non-strict, so the boundary values 0.2 and 0.030 are accepted), exposing
the computed slope and offset unchanged; and it raises exactly when a
drift strictly exceeds its bound. -/
theorem calibration_validation_iff :
    ∀ p1 p2 : CalPoint, ∀ temp v_off : ℚ,
      0 ≤ temp → temp ≤ 100 → p1.ph ≠ p2.ph →
      (PHCalibration.init [p1, p2] temp v_off =
          .ok ⟨slope_value p1 p2 temp, offset_value p1 p2 temp⟩ ↔
        |slope_value p1 p2 temp - 1| ≤ 0.2 ∧
        |offset_value p1 p2 temp - v_off| ≤ 30e-3) ∧
      ((∃ e, PHCalibration.init [p1, p2] temp v_off = .error e) ↔
        0.2 < |slope_value p1 p2 temp - 1| ∨
        30e-3 < |offset_value p1 p2 temp - v_off|) := by
  intro p1 p2 temp v_off h0 h1 hne
  rw [init_pair_eval p1 p2 temp v_off h0 h1 hne]
  simp only [PHCalibration.max_slope_drift, PHCalibration.max_v_ph7_drift, gt_iff_lt]
  constructor
  · constructor
    · intro h
      by_cases ha : (0.2:ℚ) < |slope_value p1 p2 temp - 1|
      · rw [if_pos ha] at h
        cases h
      · rw [if_neg ha] at h
        by_cases hb : (30e-3:ℚ) < |offset_value p1 p2 temp - v_off|
        · rw [if_pos hb] at h
          cases h
        · exact ⟨not_lt.1 ha, not_lt.1 hb⟩
    · rintro ⟨ha, hb⟩
      rw [if_neg (not_lt.2 ha), if_neg (not_lt.2 hb)]
  · constructor
    · rintro ⟨e, h⟩
      by_cases ha : (0.2:ℚ) < |slope_value p1 p2 temp - 1|
      · exact Or.inl ha
      · rw [if_neg ha] at h
        by_cases hb : (30e-3:ℚ) < |offset_value p1 p2 temp - v_off|
        · exact Or.inr hb
        · rw [if_neg hb] at h
          cases h
    · rintro (ha | hb)
      · exact ⟨_, by rw [if_pos ha]⟩
      · by_cases ha : (0.2:ℚ) < |slope_value p1 p2 temp - 1|
        · exact ⟨_, by rw [if_pos ha]⟩
        · exact ⟨_, by rw [if_neg ha, if_pos hb]⟩

/-- Witness for C2: an ideal electrode instance (slope 1, offset 0) at
temp 25, for which the theorem's success case yields a constructed
calibration exposing slope 1 and offset 0. -/
theorem calibration_validation_iff_witness :
    ((0:ℚ) ≤ 25 ∧ (25:ℚ) ≤ 100 ∧
      (CalPoint.mk 7 0).ph ≠ (CalPoint.mk 4 (3 * PHTheory.ideal_slope_val 25)).ph) ∧
    PHCalibration.init [⟨7, 0⟩, ⟨4, 3 * PHTheory.ideal_slope_val 25⟩] 25 0 =
      .ok ⟨1, 0⟩ := by
  refine ⟨⟨by norm_num, by norm_num, by norm_num⟩, ?_⟩
  have h := (calibration_validation_iff ⟨7, 0⟩ ⟨4, 3 * PHTheory.ideal_slope_val 25⟩
    25 0 (by norm_num) (by norm_num) (by norm_num)).1.2
  rw [slope_value_example, offset_value_example] at h
  exact h (by norm_num)

lemma init_ok_slope_drift {points : List CalPoint} {temp v_off : ℚ}
    {c : PHCalibration}
    (h : PHCalibration.init points temp v_off = .ok c) :
    |c.slope - 1| ≤ PHCalibration.max_slope_drift := by
  rcases points with - | ⟨p1, - | ⟨p2, - | ⟨p3, rest⟩⟩⟩
  · simp [PHCalibration.init] at h
  · simp [PHCalibration.init] at h
  · rw [PHCalibration.init] at h
    cases hs : PHTheory.compute_slope temp p1.ph p1.voltage p2.ph p2.voltage with
    | error e => simp [hs, Except.bind, bind] at h
    | ok slope =>
      cases ho : PHTheory.compute_offset temp slope p1.ph p1.voltage with
      | error e => simp [hs, ho, Except.bind, bind] at h
      | ok offset =>
        simp only [hs, ho, Except.bind, bind, gt_iff_lt] at h
        by_cases ha : PHCalibration.max_slope_drift < |slope - 1|
        · rw [if_pos ha] at h
          cases h
        · rw [if_neg ha] at h
          by_cases hb : PHCalibration.max_v_ph7_drift < |offset - v_off|
          · rw [if_pos hb] at h
            cases h
          · rw [if_neg hb] at h
            cases h
            exact not_lt.1 ha
  · simp [PHCalibration.init] at h

/-- C10 (confirmed): whenever PHCalibration construction succeeds, the
exposed slope lies in [0.8, 1.2] and is nonzero, the ideal sensitivity is
strictly positive on [0, 100], and so compute_ph never takes the
division-by-zero branch for any in-range temperature and any voltage: it
returns `7 + (offset - v) / (slope * ideal_slope(t))`. -/
theorem calibration_compute_ph_division_safe :
    ∀ points : List CalPoint, ∀ temp0 v_off : ℚ, ∀ c : PHCalibration,
      PHCalibration.init points temp0 v_off = .ok c →
      ((4:ℚ)/5 ≤ c.slope ∧ c.slope ≤ 6/5 ∧ c.slope ≠ 0) ∧
      (∀ t v : ℚ, 0 ≤ t → t ≤ 100 →
        0 < PHTheory.ideal_slope_val t ∧
        c.compute_ph t v =
          .ok (7 + (c.offset - v) / (c.slope * PHTheory.ideal_slope_val t))) := by
  intro points temp0 v_off c h
  have hd := init_ok_slope_drift h
  rw [PHCalibration.max_slope_drift] at hd
  rcases abs_le.1 hd with ⟨hl, hr⟩
  have h4 : (4:ℚ)/5 ≤ c.slope := by linarith [show (-(0.2:ℚ)) = -(1/5) from by norm_num]
  have h6 : c.slope ≤ 6/5 := by
    have : (0.2:ℚ) = 1/5 := by norm_num
    linarith
  have hne : c.slope ≠ 0 := by
    intro h0
    rw [h0] at h4
    norm_num at h4
  refine ⟨⟨h4, h6, hne⟩, ?_⟩
  intro t v h0 h1
  have hpos := ideal_slope_val_pos h0
  refine ⟨hpos, ?_⟩
  rw [PHCalibration.compute_ph, PHTheory.compute_ph]
  simp only [ideal_slope_ok h0 h1, bind, Except.bind,
    if_neg (mul_ne_zero hne hpos.ne')]

/-- Witness for C10: the ideal calibration instance (slope 1, offset 0)
constructed at temp 25, evaluated at t = 21, v = 1/2. -/
theorem calibration_compute_ph_division_safe_witness :
    (PHCalibration.init [⟨7, 0⟩, ⟨4, 3 * PHTheory.ideal_slope_val 25⟩] 25 0 =
      .ok ⟨1, 0⟩ ∧ (0:ℚ) ≤ 21 ∧ (21:ℚ) ≤ 100) ∧
    (0 < PHTheory.ideal_slope_val 21 ∧
      PHCalibration.compute_ph ⟨1, 0⟩ 21 (1/2) =
        .ok (7 + ((⟨1, 0⟩ : PHCalibration).offset - 1/2) /
          ((⟨1, 0⟩ : PHCalibration).slope * PHTheory.ideal_slope_val 21))) :=
  ⟨⟨init_ideal_example, by norm_num, by norm_num⟩,
   (calibration_compute_ph_division_safe _ _ _ _ init_ideal_example).2 21 (1/2)
     (by norm_num) (by norm_num)⟩

lemma get_values_const :
    ADCInterface._get_values (fun _ => (8, 0)) = List.replicate 256 2048 := by
  rw [List.eq_replicate_iff]
  constructor
  · rw [ADCInterface._get_values, List.length_map, List.length_range]
    rfl
  · intro b hb
    rw [ADCInterface._get_values] at hb
    rcases List.mem_map.1 hb with ⟨n, -, rfl⟩
    rfl

lemma list_mean_replicate (n : ℕ) (x : ℚ) (hn : n ≠ 0) :
    ADCInterface.list_mean (List.replicate n x) = x := by
  rw [ADCInterface.list_mean, List.sum_replicate, List.length_replicate,
    nsmul_eq_mul]
  have h : (n:ℚ) ≠ 0 := Nat.cast_ne_zero.2 hn
  field_simp

lemma list_pvariance_replicate (n : ℕ) (x : ℚ) (hn : n ≠ 0) :
    ADCInterface.list_pvariance (List.replicate n x) = 0 := by
  rw [ADCInterface.list_pvariance, list_mean_replicate n x hn, List.map_replicate]
  simp

/-- C8 (confirmed): with a bus stub that always returns the byte pair
(8, 0), i.e. raw value 2048, one batch of statistics has mean voltage
value_to_voltage(2048) = 2048·v_ref/4096, standard deviation 0, and raw
mean 2048; and for every bus the batch holds exactly filter_samples = 256
readings, never fewer. -/
theorem statistics_constant_batch :
    (∀ v_ref : ℚ,
      (ADCInterface.get_voltage_with_stat v_ref (fun _ => (8, 0))).voltage =
        ADCInterface.value_to_voltage v_ref 2048 ∧
      (ADCInterface.get_voltage_with_stat v_ref (fun _ => (8, 0))).voltage_dev = 0 ∧
      (ADCInterface.get_voltage_with_stat v_ref (fun _ => (8, 0))).value = 2048) ∧
    (∀ bus : ℕ → ℕ × ℕ,
      (ADCInterface._get_values bus).length = ADCInterface.filter_samples) := by
  have hv : ((ADCInterface._get_values (fun _ => (8, 0))).map (fun v : ℕ => (v:ℚ)))
      = List.replicate 256 (2048:ℚ) := by
    rw [get_values_const, List.map_replicate]
    norm_num
  have hmean : ADCInterface.list_mean (List.replicate 256 (2048:ℚ)) = 2048 :=
    list_mean_replicate 256 2048 (by norm_num)
  have hdev : ADCInterface.list_pstdev (List.replicate 256 (2048:ℚ)) = 0 := by
    rw [ADCInterface.list_pstdev, list_pvariance_replicate 256 2048 (by norm_num)]
    simp
  constructor
  · intro v_ref
    refine ⟨?_, ?_, ?_⟩
    · show ADCInterface.value_to_voltage v_ref
        (ADCInterface.list_mean
          ((ADCInterface._get_values (fun _ => (8, 0))).map (fun v : ℕ => (v:ℚ)))) =
        ADCInterface.value_to_voltage v_ref 2048
      rw [hv, hmean]
    · show ADCInterface.list_pstdev
          ((ADCInterface._get_values (fun _ => (8, 0))).map (fun v : ℕ => (v:ℚ))) *
          (v_ref : ℝ) / ((2 : ℝ) ^ ADCInterface.adc_bits) = 0
      rw [hv, hdev]
      ring
    · show ADCInterface.list_mean
        ((ADCInterface._get_values (fun _ => (8, 0))).map (fun v : ℕ => (v:ℚ))) = 2048
      rw [hv, hmean]
  · intro bus
    rw [ADCInterface._get_values]
    rw [List.length_map, List.length_range]
